import Mathlib

/-!
Verification of the psix scoring core (src/psix/model_functions.py).

The probability model is embedded over the exact reals: the source evaluates
scipy.special.comb (exact=False), which computes the continuous log-gamma
extension Gamma(N+1)/(Gamma(k+1)*Gamma(N-k+1)) of the binomial coefficient
and then masks the result to 0 wherever the condition
(k <= N) and (N >= 0) and (k >= 0) fails -- scipy documents that N < 0,
k < 0 or k > N give 0, and a NaN argument also fails the mask, so comb of a
NaN argument is 0.  Inside the mask region every Gamma argument is at least
1, so no Gamma pole is ever reached.

The scoring pipeline tracks the source's float special values explicitly:
FV is a float value that is either finite, -inf, +inf, or NaN.  Missing
observations (NaN entries of the input arrays) are Option.none.
-/

open scoped Classical

namespace Psix

/-- The bare continuous log-gamma extension of the binomial coefficient,
binom(x, y) = Gamma(x+1)/(Gamma(y+1)*Gamma(x-y+1)). -/
noncomputable def binomGamma (x y : ℝ) : ℝ :=
  Real.Gamma (x + 1) / (Real.Gamma (y + 1) * Real.Gamma (x - y + 1))

/-- scipy.special.comb (exact=False), the combinatorial function used
throughout the model: the continuous log-gamma extension of the binomial
coefficient, masked to 0 unless k <= N, N >= 0 and k >= 0 (a NaN argument in
the source also fails the mask and gives 0). -/
noncomputable def comb (x y : ℝ) : ℝ :=
  if y ≤ x ∧ 0 ≤ x ∧ 0 ≤ y then binomGamma x y else 0

/-- Python's int() on a float truncates toward zero. -/
noncomputable def pytrunc (x : ℝ) : ℤ :=
  if 0 ≤ x then ⌊x⌋ else ⌈x⌉

/-- probability_psi_m_unknown (lines 33-48): sum over candidate true molecule
counts m in np.arange(captured_mrna, np.int(10*captured_mrna/capture_efficiency))
of comb(m*t, r*o) * comb(m*(1-t), r*(1-o)) * c^(r+1) * (1-c)^(m-r). -/
noncomputable def probability_psi_m_unknown (observed_psi true_psi capture_efficiency : ℝ)
    (captured_mrna : ℤ) : ℝ :=
  ∑ m ∈ Finset.Ico captured_mrna
      (pytrunc (10 * (captured_mrna : ℝ) / capture_efficiency)),
    comb ((m : ℝ) * true_psi) ((captured_mrna : ℝ) * observed_psi) *
      comb ((m : ℝ) * (1 - true_psi)) ((captured_mrna : ℝ) * (1 - observed_psi)) *
      capture_efficiency ^ (captured_mrna + 1) *
      (1 - capture_efficiency) ^ (m - captured_mrna)

/-- probability_psi_m_known (lines 50-59): the closed-form ratio
comb(cm*t, r*o) * comb(cm*(1-t), r*(1-o)) * comb(cm, r)^(-1). -/
noncomputable def probability_psi_m_known (observed_psi true_psi : ℝ)
    (captured_mrna : ℤ) (cell_molecules : ℝ) : ℝ :=
  comb (cell_molecules * true_psi) ((captured_mrna : ℝ) * observed_psi) *
    comb (cell_molecules * (1 - true_psi)) ((captured_mrna : ℝ) * (1 - observed_psi)) *
    (comb cell_molecules (captured_mrna : ℝ))⁻¹

/-- probability_psi_observation (lines 11-31): cell_molecules = r/c, then the
branch on whether the naive scaled molecule count can explain the observed
split. -/
noncomputable def probability_psi_observation (observed_psi true_psi capture_efficiency : ℝ)
    (captured_mrna : ℤ) : ℝ :=
  let cell_molecules : ℝ := (captured_mrna : ℝ) / capture_efficiency
  if cell_molecules * true_psi < (captured_mrna : ℝ) * observed_psi ∨
      cell_molecules * (1 - true_psi) < (captured_mrna : ℝ) * (1 - observed_psi) then
    probability_psi_m_unknown observed_psi true_psi capture_efficiency captured_mrna
  else
    probability_psi_m_known observed_psi true_psi captured_mrna cell_molecules

/-- A float value of the scoring pipeline: finite, an infinity, or NaN. -/
inductive FV where
  | nan : FV
  | ninf : FV
  | pinf : FV
  | fin : ℝ → FV

/-- np.isnan on a pipeline float value. -/
def FV.isnan : FV → Bool
  | .nan => true
  | _ => false

/-- IEEE float subtraction on special values: NaN propagates, and the
difference of two equal-signed infinities is NaN. -/
def FV.sub : FV → FV → FV
  | .nan, _ => .nan
  | _, .nan => .nan
  | .fin a, .fin b => .fin (a - b)
  | .fin _, .ninf => .pinf
  | .fin _, .pinf => .ninf
  | .ninf, .fin _ => .ninf
  | .ninf, .ninf => .nan
  | .ninf, .pinf => .ninf
  | .pinf, .fin _ => .pinf
  | .pinf, .pinf => .nan
  | .pinf, .ninf => .pinf

/-- IEEE float addition on special values: NaN propagates, and the sum of two
opposite-signed infinities is NaN. -/
def FV.add : FV → FV → FV
  | .nan, _ => .nan
  | _, .nan => .nan
  | .fin a, .fin b => .fin (a + b)
  | .fin _, .ninf => .ninf
  | .fin _, .pinf => .pinf
  | .ninf, .fin _ => .ninf
  | .ninf, .ninf => .ninf
  | .ninf, .pinf => .nan
  | .pinf, .fin _ => .pinf
  | .pinf, .pinf => .pinf
  | .pinf, .ninf => .nan

/-- np.log on a finite float: positive arguments give a finite logarithm,
log(0) is -inf and the logarithm of a negative number is NaN. -/
noncomputable def nplog (x : ℝ) : FV :=
  if 0 < x then .fin (Real.log x) else if x = 0 then .ninf else .nan

/-- np.log extended to pipeline float values. -/
noncomputable def FV.log : FV → FV
  | .nan => .nan
  | .ninf => .nan
  | .pinf => .pinf
  | .fin x => nplog x

/-- np.sum of a list of float values, folding float addition from 0. -/
def fvsum (l : List FV) : FV := l.foldl FV.add (.fin 0)

/-- Division of a float value by an integer cell count (used on the exon
score's denominator, which the caller has checked to be positive). -/
noncomputable def FV.divInt : FV → ℤ → FV
  | .nan, _ => .nan
  | .fin x, n => .fin (x / (n : ℝ))
  | .ninf, n => if (n : ℝ) < 0 then .pinf else .ninf
  | .pinf, n => if (n : ℝ) < 0 then .ninf else .pinf

/-- psi_observation_score (lines 61-99).  A missing observed value scores 0.
A missing (NaN) reference ratio reaches probability_psi_observation, where
both float comparisons of the branch condition are false, so the known-m
closed form is taken; comb masks its NaN arguments to 0, leaving
0 * 0 * comb(r/c, r)^(-1): probability 0 when comb(r/c, r) > 0 (floored to
min_probability by np.max like any other probability), and NaN (from
0 * inf, since numpy's 0.0 ** (-1) is inf) when comb(r/c, r) = 0, in which
case np.max propagates the NaN, its log is NaN and the isnan guards return
the neutral score 0. -/
noncomputable def psi_observation_score (observed_psi neighborhood_psi global_psi : Option ℝ)
    (captured_mrna : ℤ) (capture_efficiency min_probability : ℝ) : FV :=
  match observed_psi with
  | none => .fin 0
  | some o =>
    let probability_given_neighborhood : FV :=
      match neighborhood_psi with
      | none =>
        if comb ((captured_mrna : ℝ) / capture_efficiency) (captured_mrna : ℝ) = 0
        then .nan else .fin (max min_probability 0)
      | some t => .fin (max min_probability
          (probability_psi_observation o t capture_efficiency captured_mrna))
    let probability_given_global : FV :=
      match global_psi with
      | none =>
        if comb ((captured_mrna : ℝ) / capture_efficiency) (captured_mrna : ℝ) = 0
        then .nan else .fin (max min_probability 0)
      | some g => .fin (max min_probability
          (probability_psi_observation o g capture_efficiency captured_mrna))
    let log_probability_neighborhood := probability_given_neighborhood.log
    let log_probability_global := probability_given_global.log
    if log_probability_neighborhood.isnan || log_probability_global.isnan ||
        (FV.sub log_probability_neighborhood log_probability_global).isnan then
      .fin 0
    else
      FV.sub log_probability_neighborhood log_probability_global

/-- Elementwise combination of three parallel lists (the np.vectorize idiom of
the drivers, which walk index-aligned arrays of equal length). -/
def map3 {α β γ δ : Type} (f : α → β → γ → δ) : List α → List β → List γ → List δ
  | a :: as, b :: bs, c :: cs => f a b c :: map3 f as bs cs
  | _, _, _ => []

/-- psi_observations_scores_vec (lines 102-125): clamps each defined
neighborhood estimate into [0.01, 0.99] (NaN entries stay NaN, since both float
comparisons with NaN are false), then scores each cell. -/
noncomputable def psi_observations_scores_vec (observed_psi_array : List ℝ)
    (neighborhood_psi_array : List (Option ℝ)) (global_psi : ℝ) (mrna_array : List ℤ)
    (capture_efficiency min_probability : ℝ) : List FV :=
  let clamped := neighborhood_psi_array.map (Option.map fun x =>
    if x > 0.99 then 0.99 else if x < 0.01 then 0.01 else x)
  map3 (fun o a m =>
      psi_observation_score (some o) a (some global_psi) m capture_efficiency min_probability)
    observed_psi_array clamped mrna_array

/-- One step of the inner loop of get_arrays (lines 199-203): a neighbor whose
own observation is NaN is skipped, otherwise its weighted observation and its
weight are accumulated. -/
def nb_step (observed_psi_array : List (Option ℝ)) (sw : ℝ × ℝ) (p : ℕ × ℝ) : ℝ × ℝ :=
  match observed_psi_array.getD p.1 none with
  | none => sw
  | some psi_n => (sw.1 + psi_n * p.2, sw.2 + p.2)

/-- The neighborhood estimate of one cell (lines 194-207): the loop starts at
list position 1 (position 0 is the cell itself), and a zero contributing
weight sum yields NaN. -/
noncomputable def neighborhood_estimate (observed_psi_array : List (Option ℝ))
    (neighbors : List ℕ) (weights : List ℝ) : Option ℝ :=
  let acc := ((neighbors.zip weights).drop 1).foldl (nb_step observed_psi_array) (0, 0)
  if acc.2 > 0 then some (acc.1 / acc.2) else none

/-- get_arrays (lines 182-211): keeps the cells with a defined observation, in
order, pairing each with its neighborhood estimate and its raw molecule count;
then collapses raw molecule counts in (0.1, 1] to 1.  The neighbor graph is a
pair of index-aligned lists (neighbor indices, weights) per cell; out-of-range
accesses, which would raise in the source, read a default. -/
noncomputable def get_arrays (observed_psi_array : List (Option ℝ)) (mrna_obs_array : List ℝ)
    (cell_metric : List (List ℕ) × List (List ℝ)) : List ℝ × List (Option ℝ) × List ℝ :=
  let filt := (List.range observed_psi_array.length).filterMap fun i =>
    (observed_psi_array.getD i none).map fun psi_o => (i, psi_o)
  let psi_o_array := filt.map fun p => p.2
  let psi_a_array := filt.map fun p =>
    neighborhood_estimate observed_psi_array (cell_metric.1.getD p.1 [])
      (cell_metric.2.getD p.1 [])
  let mrna_array := (filt.map fun p => mrna_obs_array.getD p.1 0).map fun x =>
    if 0.1 < x ∧ x ≤ 1 then 1 else x
  (psi_o_array, psi_a_array, mrna_array)

/-- np.round: round half to even (banker's rounding); away from exact halves
it agrees with rounding to the nearest integer. -/
noncomputable def npround (x : ℝ) : ℤ :=
  if Int.fract x = 1 / 2 then (if Even ⌊x⌋ then ⌊x⌋ else ⌊x⌋ + 1) else round x

/-- Python list indexing: a negative index counts from the end of the list. -/
def pyGet {α : Type} (l : List α) (i : ℤ) (d : α) : α :=
  if 0 ≤ i then l.getD i.toNat d else l.getD ((l.length : ℤ) + i).toNat d

/-- The clamp of the reference-ratio column index into [0, 98] (lines 303-306). -/
def clamp99 (i : ℤ) : ℤ :=
  if i < 0 then 0 else if i > 98 then 98 else i

/-- psix_turbo (lines 296-308): looks up the table selected by mrna-1 (Python
negative indexing: mrna = 0 selects the last table) at row round(psi_o*100) and
clamped column round(psi_a*100)-1. -/
noncomputable def psix_turbo (psi_o psi_a : ℝ) (mrna : ℤ)
    (turbo_dict : List (List (List ℝ))) : ℝ :=
  let psi_o_idx : ℤ := npround (psi_o * 100)
  let psi_a_idx : ℤ := clamp99 (npround (psi_a * 100) - 1)
  let mrna_idx : ℤ := mrna - 1
  pyGet (pyGet (pyGet turbo_dict mrna_idx []) psi_o_idx []) psi_a_idx 0

/-- L_score_turbo (lines 310-315): log of the neighborhood lookup minus log of
the global lookup. -/
noncomputable def L_score_turbo (psi_o psi_a psi_n : ℝ) (mrna : ℤ)
    (turbo_dict : List (List (List ℝ))) : FV :=
  FV.sub (nplog (psix_turbo psi_o psi_a mrna turbo_dict))
    (nplog (psix_turbo psi_o psi_n mrna turbo_dict))

/-- psi_observations_scores_vec_turbo (lines 317-327).  A NaN neighborhood
estimate would be rounded and converted to an integer index, which is an
error/undefined on NaN; it is modelled as a NaN score value. -/
noncomputable def psi_observations_scores_vec_turbo (observed_psi_array : List ℝ)
    (neighborhood_psi_array : List (Option ℝ)) (global_psi : ℝ) (mrna_array : List ℤ)
    (turbo_dict : List (List (List ℝ))) : List FV :=
  map3 (fun o a m =>
      match a with
      | none => FV.nan
      | some psi_a => L_score_turbo o psi_a global_psi m turbo_dict)
    observed_psi_array neighborhood_psi_array mrna_array

/-- psix_score (lines 233-291).  shuffleFn models the permutation that
sklearn's shuffle draws from the numpy generator just seeded with
np.random.seed(seed): per the spec it is a deterministic function of the seed,
drawn over the full cell index range.  A supplied turbo table is Option.some;
NaN is the undefined exon score. -/
noncomputable def psix_score (shuffleFn : ℕ → ℕ → List ℕ)
    (exon_psi_array : List (Option ℝ)) (exon_mrna_array : List ℝ)
    (cell_metric : List (List ℕ) × List (List ℝ)) (capture_efficiency : ℝ)
    (randomize : Bool) (min_probability : ℝ) (seed : ℕ)
    (turbo : Option (List (List (List ℝ)))) : FV :=
  let ncells := exon_psi_array.length
  let shuffled_cells := shuffleFn seed ncells
  let psi_in := if randomize then
    shuffled_cells.map (fun j => exon_psi_array.getD j none) else exon_psi_array
  let mrna_in := if randomize then
    shuffled_cells.map (fun j => exon_mrna_array.getD j 0) else exon_mrna_array
  let arrays := get_arrays psi_in mrna_in cell_metric
  let observed_psi_array := arrays.1
  let neighborhood_psi_array := arrays.2.1
  let mrna_array : List ℤ := arrays.2.2.map npround
  let total_cells : ℤ := (observed_psi_array.length : ℤ) - mrna_array.countP (fun x => x == 0)
  if total_cells ≤ 0 then .nan
  else
    let global_psi := observed_psi_array.sum / observed_psi_array.length
    match turbo with
    | some turbo_dict =>
      let mrna_max : ℤ := turbo_dict.length
      let mrna_capped := mrna_array.map fun x => if x ≥ mrna_max then mrna_max else x
      FV.divInt (fvsum (psi_observations_scores_vec_turbo observed_psi_array
        neighborhood_psi_array global_psi mrna_capped turbo_dict)) total_cells
    | none =>
      FV.divInt (fvsum (psi_observations_scores_vec observed_psi_array
        neighborhood_psi_array global_psi mrna_array capture_efficiency
        min_probability)) total_cells

/-! ## Helper lemmas -/

lemma comb_zero_zero : comb 0 0 = 1 := by
  unfold comb binomGamma
  norm_num [Real.Gamma_one]

lemma score_guard_isnan_false (l1 l2 : FV) :
    (if l1.isnan || l2.isnan || (FV.sub l1 l2).isnan then FV.fin 0
     else FV.sub l1 l2).isnan = false := by
  by_cases h : (l1.isnan || l2.isnan || (FV.sub l1 l2).isnan) = true
  · rw [if_pos h]; rfl
  · rw [if_neg h]
    simp only [Bool.or_eq_true, not_or] at h
    simpa using h.2

lemma probability_psi_observation_zero_mrna (o t c : ℝ) :
    probability_psi_observation o t c 0 = 1 := by
  simp [probability_psi_observation, probability_psi_m_known, comb_zero_zero]

/-! ## Claims -/

/-- C1: probability_psi_observation computes cell_molecules = r/c and branches:
if cell_molecules*t < r*o or cell_molecules*(1-t) < r*(1-o) it returns the sum
over candidate true molecule counts m from r up to 10*r/c (the upper bound
truncated to an integer, exclusive, as np.arange) of
comb(m*t, r*o)*comb(m*(1-t), r*(1-o))*c^(r+1)*(1-c)^(m-r); otherwise it
returns comb(cell_molecules*t, r*o)*comb(cell_molecules*(1-t), r*(1-o)) /
comb(cell_molecules, r), where comb is scipy's combinatorial function: the
continuous log-gamma extension of the binomial coefficient on its domain
0 <= k <= N, masked to 0 elsewhere. -/
theorem claim_C1_probability_psi_observation_branches
    (observed_psi true_psi capture_efficiency : ℝ) (captured_mrna : ℤ) :
    probability_psi_observation observed_psi true_psi capture_efficiency captured_mrna =
      (let cell_molecules : ℝ := (captured_mrna : ℝ) / capture_efficiency
       if cell_molecules * true_psi < (captured_mrna : ℝ) * observed_psi ∨
           cell_molecules * (1 - true_psi) < (captured_mrna : ℝ) * (1 - observed_psi) then
         ∑ m ∈ Finset.Ico captured_mrna
             (pytrunc (10 * (captured_mrna : ℝ) / capture_efficiency)),
           comb ((m : ℝ) * true_psi) ((captured_mrna : ℝ) * observed_psi) *
             comb ((m : ℝ) * (1 - true_psi)) ((captured_mrna : ℝ) * (1 - observed_psi)) *
             capture_efficiency ^ (captured_mrna + 1) *
             (1 - capture_efficiency) ^ (m - captured_mrna)
       else
         comb (cell_molecules * true_psi) ((captured_mrna : ℝ) * observed_psi) *
           comb (cell_molecules * (1 - true_psi)) ((captured_mrna : ℝ) * (1 - observed_psi)) /
           comb cell_molecules (captured_mrna : ℝ)) := by
  simp only [probability_psi_observation, probability_psi_m_unknown,
    probability_psi_m_known, div_eq_mul_inv]

/-- C8: the model is invariant under simultaneously replacing the observed
ratio o with 1-o and the true ratio t with 1-t: the branch condition, the
unknown-m sum and the known-m closed form each swap symmetrically. -/
theorem claim_C8_symmetry (o t c : ℝ) (r : ℤ) :
    probability_psi_observation o t c r = probability_psi_observation (1 - o) (1 - t) c r := by
  simp only [probability_psi_observation, probability_psi_m_unknown,
    probability_psi_m_known, sub_sub_cancel]
  refine (if_congr (or_comm) ?_ ?_).symm
  · exact Finset.sum_congr rfl fun m _ => by ring
  · ring

/-- Counterexample to C10: a filtered zero-molecule cell whose neighborhood
estimate is NaN (a retained possibility, see C4) does not contribute 0.  At
the default parameters c = 1/10, min_probability = 1/100, the NaN reference
makes comb mask the closed form's numerator to 0, the probability 0 is
floored to 1/100, while P(observed | global, r = 0) = 1, so the cell scores
log(1/100) - log(1) = log(1/100), which is negative, not 0. -/
theorem claim_C10_counterexample :
    psi_observation_score (some (1/2)) none (some (1/2)) 0 (1/10) (1/100) =
      FV.fin (Real.log (1/100)) ∧
    Real.log (1/100) < 0 := by
  constructor
  · have h1 : (0 : ℝ) < 1/100 := by norm_num
    have h2 : (0 : ℝ) < 1 := one_pos
    simp only [psi_observation_score, Int.cast_zero, zero_div, comb_zero_zero,
      probability_psi_observation_zero_mrna, one_ne_zero, if_false,
      max_eq_left (by norm_num : (0 : ℝ) ≤ 1/100),
      max_eq_right (by norm_num : (1/100 : ℝ) ≤ 1),
      FV.log, nplog, if_pos h1, if_pos h2, Real.log_one, FV.isnan, FV.sub,
      Bool.or_self, Bool.or_false, Bool.false_or, sub_zero, Bool.false_eq_true,
      if_false]
  · exact Real.log_neg (by norm_num) (by norm_num)

/-- C10 amended: with captured_mrna = 0 and a defined neighborhood estimate
the cell contributes exactly 0: cell_molecules = 0, the unknown-m branch
condition is false, the known-m closed form is comb(0,0)*comb(0,0)/comb(0,0)
= 1 for every defined reference estimate, so both floored probabilities
coincide and the log difference is 0.  (With a NaN neighborhood estimate the
masked probability 0 is floored to min_probability instead, and the
contribution is generally nonzero -- see the counterexample.) -/
theorem claim_C10_amended :
    (∀ o t c : ℝ, probability_psi_observation o t c 0 = 1) ∧
    (∀ o t g c mp : ℝ,
      psi_observation_score (some o) (some t) (some g) 0 c mp = FV.fin 0) := by
  refine ⟨fun o t c => probability_psi_observation_zero_mrna o t c, ?_⟩
  intro o t g c mp
  have hpos : (0 : ℝ) < max mp 1 := lt_of_lt_of_le one_pos (le_max_right _ _)
  simp [psi_observation_score, probability_psi_observation_zero_mrna,
    FV.log, nplog, hpos, FV.isnan, FV.sub]

/-- C3: the per-observation score is 0 when the observed ratio is NaN;
otherwise both model probabilities (a NaN reference gives the masked
probability 0, or NaN when comb(r/c, r) = 0) are floored at min_probability
and the score is the difference of their logs, except that it is 0 whenever
either log term or the difference is NaN — in particular the score value is
never NaN. -/
theorem claim_C3_score_nan_policy (observed_psi neighborhood_psi global_psi : Option ℝ)
    (captured_mrna : ℤ) (capture_efficiency min_probability : ℝ) :
    (psi_observation_score observed_psi neighborhood_psi global_psi captured_mrna
        capture_efficiency min_probability =
      (match observed_psi with
       | none => FV.fin 0
       | some o =>
         let p_ref : FV := match neighborhood_psi with
           | none =>
             if comb ((captured_mrna : ℝ) / capture_efficiency) (captured_mrna : ℝ) = 0
             then FV.nan else FV.fin (max min_probability 0)
           | some t => FV.fin (max min_probability
               (probability_psi_observation o t capture_efficiency captured_mrna))
         let p_global : FV := match global_psi with
           | none =>
             if comb ((captured_mrna : ℝ) / capture_efficiency) (captured_mrna : ℝ) = 0
             then FV.nan else FV.fin (max min_probability 0)
           | some g => FV.fin (max min_probability
               (probability_psi_observation o g capture_efficiency captured_mrna))
         if p_ref.log.isnan || p_global.log.isnan ||
             (FV.sub p_ref.log p_global.log).isnan then FV.fin 0
         else FV.sub p_ref.log p_global.log)) ∧
    (psi_observation_score observed_psi neighborhood_psi global_psi captured_mrna
        capture_efficiency min_probability).isnan = false := by
  constructor
  · cases observed_psi <;> rfl
  · cases observed_psi with
    | none => rfl
    | some o =>
      simp only [psi_observation_score]
      exact score_guard_isnan_false _ _

/-- C5: with randomize = true and a given seed the permutation is drawn once
from the seeded generator over the full cell index range and applied
identically to the observed-ratio and molecule arrays before any filtering or
smoothing, so two identical calls give the identical score and the randomized
call equals the non-randomized call on the identically permuted inputs. -/
theorem claim_C5_randomize_determinism (shuffleFn : ℕ → ℕ → List ℕ)
    (exon_psi_array : List (Option ℝ)) (exon_mrna_array : List ℝ)
    (cell_metric : List (List ℕ) × List (List ℝ)) (capture_efficiency min_probability : ℝ)
    (seed : ℕ) (turbo : Option (List (List (List ℝ)))) :
    (psix_score shuffleFn exon_psi_array exon_mrna_array cell_metric capture_efficiency
        true min_probability seed turbo =
      psix_score shuffleFn exon_psi_array exon_mrna_array cell_metric capture_efficiency
        true min_probability seed turbo) ∧
    (psix_score shuffleFn exon_psi_array exon_mrna_array cell_metric capture_efficiency
        true min_probability seed turbo =
      psix_score shuffleFn
        ((shuffleFn seed exon_psi_array.length).map fun j => exon_psi_array.getD j none)
        ((shuffleFn seed exon_psi_array.length).map fun j => exon_mrna_array.getD j 0)
        cell_metric capture_efficiency false min_probability seed turbo) :=
  ⟨rfl, rfl⟩

lemma length_filterMap_eq_countP {α β : Type} (l : List α) (g : α → Option β) :
    (l.filterMap g).length = l.countP fun a => (g a).isSome := by
  induction l with
  | nil => rfl
  | cons a tl ih =>
    cases h : g a with
    | none => simp [List.filterMap_cons, h, ih, List.countP_cons]
    | some b => simp [List.filterMap_cons, h, ih, List.countP_cons]

lemma countP_range_getD {α : Type} (p : α → Bool) (d : α) :
    ∀ l : List α, ((List.range l.length).countP fun i => p (l.getD i d)) = l.countP p := by
  intro l
  induction l with
  | nil => rfl
  | cons a tl ih =>
    rw [List.length_cons, List.range_succ_eq_map, List.countP_cons, List.countP_cons,
      List.countP_map]
    simp only [List.getD_cons_zero, Function.comp_def, List.getD_cons_succ]
    rw [ih]

lemma get_arrays_length (l : List (Option ℝ)) (m : List ℝ)
    (cm : List (List ℕ) × List (List ℝ)) :
    (get_arrays l m cm).1.length = l.countP fun x => x.isSome := by
  unfold get_arrays
  simp only [List.length_map]
  rw [length_filterMap_eq_countP]
  have hiso : (fun i => ((l.getD i none).map fun psi_o => (i, psi_o)).isSome)
      = fun i => (l.getD i none).isSome := by
    funext i; cases l.getD i none <;> rfl
  rw [hiso]
  exact countP_range_getD (fun x => x.isSome) none l

/-- C2: psix_score forms total_scored_cells as the number of cells with a
defined observation minus the number of those whose collapsed-and-rounded
molecule count is 0; a total of at most 0 yields the NaN result (the
undefined exon score), and otherwise the score is the sum of the per-cell
scores divided by total_scored_cells. -/
theorem claim_C2_psix_score_total (shuffleFn : ℕ → ℕ → List ℕ)
    (exon_psi_array : List (Option ℝ)) (exon_mrna_array : List ℝ)
    (cell_metric : List (List ℕ) × List (List ℝ)) (capture_efficiency : ℝ)
    (randomize : Bool) (min_probability : ℝ) (seed : ℕ)
    (turbo : Option (List (List (List ℝ)))) :
    (psix_score shuffleFn exon_psi_array exon_mrna_array cell_metric capture_efficiency
        randomize min_probability seed turbo =
      (let psi_in := if randomize then
          (shuffleFn seed exon_psi_array.length).map (fun j => exon_psi_array.getD j none)
        else exon_psi_array
       let mrna_in := if randomize then
          (shuffleFn seed exon_psi_array.length).map (fun j => exon_mrna_array.getD j 0)
        else exon_mrna_array
       let arrays := get_arrays psi_in mrna_in cell_metric
       let mrna_array : List ℤ := arrays.2.2.map npround
       let total_scored_cells : ℤ :=
         (arrays.1.length : ℤ) - mrna_array.countP (fun x => x == 0)
       if total_scored_cells ≤ 0 then FV.nan
       else
         FV.divInt (fvsum (match turbo with
           | some turbo_dict =>
             psi_observations_scores_vec_turbo arrays.1 arrays.2.1
               (arrays.1.sum / arrays.1.length)
               (mrna_array.map fun x =>
                 if x ≥ (turbo_dict.length : ℤ) then (turbo_dict.length : ℤ) else x)
               turbo_dict
           | none =>
             psi_observations_scores_vec arrays.1 arrays.2.1
               (arrays.1.sum / arrays.1.length) mrna_array capture_efficiency
               min_probability)) total_scored_cells)) ∧
    (∀ (l : List (Option ℝ)) (m : List ℝ) (cm : List (List ℕ) × List (List ℝ)),
      (get_arrays l m cm).1.length = l.countP fun x => x.isSome) :=
  ⟨by cases turbo <;> rfl, fun l m cm => get_arrays_length l m cm⟩

/-- The neighbors at list positions 1 onward whose own observation is defined,
as (observation, weight) pairs. -/
def nb_contribs (observed_psi_array : List (Option ℝ)) (l : List (ℕ × ℝ)) : List (ℝ × ℝ) :=
  l.filterMap fun p => (observed_psi_array.getD p.1 none).map fun v => (v, p.2)

/-- The neighborhood estimate as claim C4 words it: the weighted average of the
defined observations of the neighbors at positions 1 onward, normalized by the
sum of the contributing weights; NaN when that sum is 0. -/
noncomputable def neighborhood_estimate_spec (observed_psi_array : List (Option ℝ))
    (neighbors : List ℕ) (weights : List ℝ) : Option ℝ :=
  let contribs := nb_contribs observed_psi_array ((neighbors.zip weights).drop 1)
  let wsum := (contribs.map Prod.snd).sum
  if wsum = 0 then none
  else some ((contribs.map fun q => q.1 * q.2).sum / wsum)

lemma nb_fold (observed_psi_array : List (Option ℝ)) (l : List (ℕ × ℝ)) :
    ∀ s w : ℝ, l.foldl (nb_step observed_psi_array) (s, w) =
      (s + ((nb_contribs observed_psi_array l).map fun q => q.1 * q.2).sum,
       w + ((nb_contribs observed_psi_array l).map Prod.snd).sum) := by
  induction l with
  | nil => simp [nb_contribs]
  | cons p tl ih =>
    intro s w
    rw [List.foldl_cons]
    cases h : observed_psi_array.getD p.1 none with
    | none =>
      simp only [nb_step, h, nb_contribs, List.filterMap_cons, Option.map_none'] at *
      exact ih s w
    | some v =>
      simp only [nb_step, h, nb_contribs, List.filterMap_cons, Option.map_some'] at *
      rw [ih]
      simp only [List.map_cons, List.sum_cons, Prod.mk.injEq]
      constructor <;> ring

lemma nb_wsum_nonneg (observed_psi_array : List (Option ℝ)) (neighbors : List ℕ)
    (weights : List ℝ) (hw : ∀ w ∈ weights, 0 ≤ w) :
    0 ≤ ((nb_contribs observed_psi_array ((neighbors.zip weights).drop 1)).map
      Prod.snd).sum := by
  apply List.sum_nonneg
  intro x hx
  simp only [List.mem_map, nb_contribs, List.mem_filterMap] at hx
  obtain ⟨q, ⟨p, hp, hq⟩, hxq⟩ := hx
  cases h : observed_psi_array.getD p.1 none with
  | none => rw [h] at hq; exact absurd hq (by simp)
  | some v =>
    rw [h] at hq
    simp only [Option.map_some', Option.some.injEq] at hq
    subst hq
    subst hxq
    exact hw _ (List.of_mem_zip (List.mem_of_mem_drop hp)).2

lemma neighborhood_estimate_eq_spec (observed_psi_array : List (Option ℝ))
    (neighbors : List ℕ) (weights : List ℝ) (hw : ∀ w ∈ weights, 0 ≤ w) :
    neighborhood_estimate observed_psi_array neighbors weights =
      neighborhood_estimate_spec observed_psi_array neighbors weights := by
  unfold neighborhood_estimate neighborhood_estimate_spec
  rw [nb_fold]
  simp only [zero_add]
  have hW := nb_wsum_nonneg observed_psi_array neighbors weights hw
  by_cases h : ((nb_contribs observed_psi_array ((neighbors.zip weights).drop 1)).map
      Prod.snd).sum = 0
  · rw [h, if_neg (lt_irrefl 0), if_pos rfl]
  · have hpos : 0 < ((nb_contribs observed_psi_array ((neighbors.zip weights).drop 1)).map
        Prod.snd).sum := lt_of_le_of_ne hW (Ne.symm h)
    rw [if_pos hpos, if_neg h]

lemma filterMap_indexed (observed_psi_array : List (Option ℝ)) (l : List ℕ) :
    (l.filterMap fun i => (observed_psi_array.getD i none).map fun v => (i, v)) =
      (l.filter fun i => (observed_psi_array.getD i none).isSome).map
        fun i => (i, (observed_psi_array.getD i none).getD 0) := by
  induction l with
  | nil => rfl
  | cons i tl ih =>
    cases h : observed_psi_array.getD i none with
    | none =>
      simp only [List.filterMap_cons, List.filter_cons, h, Option.map_none',
        Option.isSome_none, Bool.false_eq_true, if_false, ih]
    | some v =>
      simp only [List.filterMap_cons, List.filter_cons, h, Option.map_some',
        Option.isSome_some, if_true, List.map_cons, Option.getD_some, ih]

/-- C4: for every cell with a defined observation, get_arrays pairs the cell's
own observed value with a neighborhood estimate that is the weighted average
of the defined observations of the neighbors at list positions 1 onward
(position 0, the cell itself, excluded), normalized by the sum of the weights
that contributed; when the contributing weight sum is 0 the cell is still
retained, with estimate NaN rather than zero. -/
theorem claim_C4_neighborhood_smoother (observed_psi_array : List (Option ℝ))
    (mrna_obs_array : List ℝ) (neighborsL : List (List ℕ)) (weightsL : List (List ℝ))
    (hw : ∀ l ∈ weightsL, ∀ w ∈ l, 0 ≤ w) :
    ((get_arrays observed_psi_array mrna_obs_array (neighborsL, weightsL)).2.1 =
      ((List.range observed_psi_array.length).filter
          fun i => (observed_psi_array.getD i none).isSome).map
        fun i => neighborhood_estimate_spec observed_psi_array
          (neighborsL.getD i []) (weightsL.getD i [])) ∧
    ((get_arrays observed_psi_array mrna_obs_array (neighborsL, weightsL)).1 =
      ((List.range observed_psi_array.length).filter
          fun i => (observed_psi_array.getD i none).isSome).map
        fun i => (observed_psi_array.getD i none).getD 0) ∧
    (∀ neighbors weights, (∀ w ∈ weights, 0 ≤ w) →
      ((nb_contribs observed_psi_array ((neighbors.zip weights).drop 1)).map
        Prod.snd).sum = 0 →
      neighborhood_estimate observed_psi_array neighbors weights = none) := by
  have hwi : ∀ i : ℕ, ∀ w ∈ weightsL.getD i [], 0 ≤ w := by
    intro i w hwmem
    by_cases hi : i < weightsL.length
    · rw [List.getD_eq_getElem _ _ hi] at hwmem
      exact hw _ (List.getElem_mem hi) w hwmem
    · rw [List.getD_eq_default _ _ (le_of_not_lt hi)] at hwmem
      exact absurd hwmem (List.not_mem_nil w)
  refine ⟨?_, ?_, ?_⟩
  · rw [get_arrays]
    dsimp only
    rw [filterMap_indexed, List.map_map]
    refine List.map_congr_left fun i _ => ?_
    exact neighborhood_estimate_eq_spec observed_psi_array _ _ (hwi i)
  · rw [get_arrays]
    dsimp only
    rw [filterMap_indexed, List.map_map]
    rfl
  · intro neighbors weights hw0 hz
    unfold neighborhood_estimate
    rw [nb_fold]
    simp only [zero_add]
    rw [hz]
    exact if_neg (lt_irrefl 0)

/-- Witness for C4 at a concrete two-cell input with one missing observation. -/
theorem claim_C4_witness :
    (get_arrays [some (1/2 : ℝ), none] [1, 0] ([[0, 1], [1, 0]], [[1, 1], [1, 1]])).1 =
      ((List.range 2).filter fun i => (([some (1/2 : ℝ), none] : List (Option ℝ)).getD i
          none).isSome).map
        fun i => (([some (1/2 : ℝ), none] : List (Option ℝ)).getD i none).getD 0 :=
  (claim_C4_neighborhood_smoother [some (1/2 : ℝ), none] [1, 0] [[0, 1], [1, 0]]
    [[1, 1], [1, 1]] (by simp)).2.1

lemma map3_get_some {α β γ δ : Type} (f : α → β → γ → δ) :
    ∀ (as : List α) (bs : List β) (cs : List γ) (i : ℕ) (a : α) (b : β) (c : γ),
      as.get? i = some a → bs.get? i = some b → cs.get? i = some c →
      (map3 f as bs cs).get? i = some (f a b c) := by
  intro as
  induction as with
  | nil => intro bs cs i a b c ha hb hc; rw [List.get?_nil] at ha; exact absurd ha (by simp)
  | cons x xs ih =>
    intro bs cs i a b c ha hb hc
    cases bs with
    | nil => rw [List.get?_nil] at hb; exact absurd hb (by simp)
    | cons y ys =>
      cases cs with
      | nil => rw [List.get?_nil] at hc; exact absurd hc (by simp)
      | cons z zs =>
        cases i with
        | zero =>
          simp only [List.get?_cons_zero, Option.some.injEq] at ha hb hc
          subst ha; subst hb; subst hc
          rfl
        | succ n =>
          simp only [List.get?_cons_succ] at ha hb hc
          exact ih ys zs n a b c ha hb hc

/-- C6: with a turbo table, a cell's score contribution is
log(T[r-1][round(100*o), clamp(round(100*a)-1, 0, 98)]) minus the same lookup
at the global estimate g, where r is the cell's molecule count capped at the
number of tables and a negative table index counts from the end. -/
theorem claim_C6_turbo_lookup (turbo_dict : List (List (List ℝ)))
    (observed_psi_array : List ℝ) (neighborhood_psi_array : List (Option ℝ))
    (global_psi : ℝ) (mrna_array : List ℤ) (i : ℕ) (o a : ℝ) (m : ℤ)
    (ho : observed_psi_array.get? i = some o)
    (ha : neighborhood_psi_array.get? i = some (some a))
    (hm : mrna_array.get? i = some m) :
    (psi_observations_scores_vec_turbo observed_psi_array neighborhood_psi_array
        global_psi (mrna_array.map fun x =>
          if x ≥ (turbo_dict.length : ℤ) then (turbo_dict.length : ℤ) else x)
        turbo_dict).get? i =
      some (FV.sub
        (nplog (pyGet (pyGet (pyGet turbo_dict
            ((if m ≥ (turbo_dict.length : ℤ) then (turbo_dict.length : ℤ) else m) - 1) [])
          (npround (o * 100)) []) (clamp99 (npround (a * 100) - 1)) 0))
        (nplog (pyGet (pyGet (pyGet turbo_dict
            ((if m ≥ (turbo_dict.length : ℤ) then (turbo_dict.length : ℤ) else m) - 1) [])
          (npround (o * 100)) []) (clamp99 (npround (global_psi * 100) - 1)) 0))) := by
  have hm2 : (mrna_array.map fun x =>
      if x ≥ (turbo_dict.length : ℤ) then (turbo_dict.length : ℤ) else x).get? i =
      some (if m ≥ (turbo_dict.length : ℤ) then (turbo_dict.length : ℤ) else m) := by
    rw [List.get?_map, hm]; rfl
  have h := map3_get_some (fun o a m =>
      match a with
      | none => FV.nan
      | some psi_a => L_score_turbo o psi_a global_psi m turbo_dict)
    observed_psi_array neighborhood_psi_array _ i o (some a) _ ho ha hm2
  simpa [psi_observations_scores_vec_turbo, L_score_turbo, psix_turbo] using h

/-- Witness for C6 at a concrete one-cell input and a 1-by-1-by-1 table. -/
theorem claim_C6_witness :
    (psi_observations_scores_vec_turbo [(0 : ℝ)] [some (0 : ℝ)] 0
        (([(1 : ℤ)]).map fun x =>
          if x ≥ (([[[(2 : ℝ)]]] : List (List (List ℝ))).length : ℤ)
          then (([[[(2 : ℝ)]]] : List (List (List ℝ))).length : ℤ) else x)
        [[[(2 : ℝ)]]]).get? 0 =
      some (FV.sub
        (nplog (pyGet (pyGet (pyGet ([[[(2 : ℝ)]]] : List (List (List ℝ)))
            ((if (1 : ℤ) ≥ (([[[(2 : ℝ)]]] : List (List (List ℝ))).length : ℤ)
              then (([[[(2 : ℝ)]]] : List (List (List ℝ))).length : ℤ) else 1) - 1) [])
          (npround ((0 : ℝ) * 100)) []) (clamp99 (npround ((0 : ℝ) * 100) - 1)) 0))
        (nplog (pyGet (pyGet (pyGet ([[[(2 : ℝ)]]] : List (List (List ℝ)))
            ((if (1 : ℤ) ≥ (([[[(2 : ℝ)]]] : List (List (List ℝ))).length : ℤ)
              then (([[[(2 : ℝ)]]] : List (List (List ℝ))).length : ℤ) else 1) - 1) [])
          (npround ((0 : ℝ) * 100)) []) (clamp99 (npround ((0 : ℝ) * 100) - 1)) 0))) :=
  claim_C6_turbo_lookup [[[2]]] [0] [some 0] 0 [1] 0 0 0 1 rfl rfl rfl

/-- C9: in the turbo path a filtered cell whose rounded molecule count is 0 is
neither skipped nor scored neutrally: the cap leaves 0 unchanged, the table
index becomes 0 - 1 = -1, Python negative indexing selects the last table (the
one for the largest molecule count), the cell receives that table's score
contribution, and the cell is still counted out of total_scored_cells. -/
theorem claim_C9_turbo_zero_mrna (turbo_dict : List (List (List ℝ)))
    (hlen : 1 ≤ turbo_dict.length)
    (observed_psi_array : List ℝ) (neighborhood_psi_array : List (Option ℝ))
    (global_psi : ℝ) (mrna_array : List ℤ) (i : ℕ) (o a : ℝ)
    (ho : observed_psi_array.get? i = some o)
    (ha : neighborhood_psi_array.get? i = some (some a))
    (hm : mrna_array.get? i = some 0) :
    ((if (0 : ℤ) ≥ (turbo_dict.length : ℤ) then (turbo_dict.length : ℤ) else 0) = 0) ∧
    (pyGet turbo_dict ((0 : ℤ) - 1) [] = turbo_dict.getD (turbo_dict.length - 1) []) ∧
    ((psi_observations_scores_vec_turbo observed_psi_array neighborhood_psi_array
        global_psi (mrna_array.map fun x =>
          if x ≥ (turbo_dict.length : ℤ) then (turbo_dict.length : ℤ) else x)
        turbo_dict).get? i =
      some (FV.sub
        (nplog (pyGet (pyGet (turbo_dict.getD (turbo_dict.length - 1) [])
          (npround (o * 100)) []) (clamp99 (npround (a * 100) - 1)) 0))
        (nplog (pyGet (pyGet (turbo_dict.getD (turbo_dict.length - 1) [])
          (npround (o * 100)) []) (clamp99 (npround (global_psi * 100) - 1)) 0)))) ∧
    (0 < mrna_array.countP fun x => x == 0) := by
  have hcap : (if (0 : ℤ) ≥ (turbo_dict.length : ℤ) then (turbo_dict.length : ℤ) else 0)
      = 0 := if_neg (by omega)
  have hpy : pyGet turbo_dict ((0 : ℤ) - 1) [] = turbo_dict.getD (turbo_dict.length - 1) [] := by
    unfold pyGet
    rw [if_neg (by omega)]
    congr 1
    omega
  refine ⟨hcap, hpy, ?_, ?_⟩
  · have hm2 : (mrna_array.map fun x =>
        if x ≥ (turbo_dict.length : ℤ) then (turbo_dict.length : ℤ) else x).get? i =
        some (if (0 : ℤ) ≥ (turbo_dict.length : ℤ) then (turbo_dict.length : ℤ) else 0) := by
      rw [List.get?_map, hm]; rfl
    rw [hcap] at hm2
    have h := map3_get_some (fun o a m =>
        match a with
        | none => FV.nan
        | some psi_a => L_score_turbo o psi_a global_psi m turbo_dict)
      observed_psi_array neighborhood_psi_array _ i o (some a) _ ho ha hm2
    rw [← hpy]
    simpa [psi_observations_scores_vec_turbo, L_score_turbo, psix_turbo] using h
  · exact List.countP_pos.mpr ⟨0, List.get?_mem hm, by simp⟩

/-- Witness for C9 at a concrete zero-molecule cell and a single-table turbo. -/
theorem claim_C9_witness :
    pyGet ([[[(2 : ℝ)]]] : List (List (List ℝ))) ((0 : ℤ) - 1) [] =
      ([[[(2 : ℝ)]]] : List (List (List ℝ))).getD
        (([[[(2 : ℝ)]]] : List (List (List ℝ))).length - 1) [] :=
  (claim_C9_turbo_zero_mrna [[[2]]] le_rfl [0] [some 0] 0 [0] 0 0 0 rfl rfl rfl).2.1

end Psix
